import Mathlib

/-!
# Verification of `fire-enrich`: `UnifiedEnrichmentView`

Shallow embedding of `src/app/fire-enrich/unified-enrichment-view.tsx`,
the two-step CSV-enrichment configuration component, together with proofs
of the specification's testable properties.

The component's local React state is embedded as `ComponentState`; each
event handler becomes a pure function `ComponentState → ComponentState ×
List Toast`, where the `Toast` list records the notifications the handler
emits.  User interactions are collected in the `Op` type, and `runOps`
replays a sequence of interactions from the initial state, so that
"for every reachable state" claims become inductions over `Op` lists.
-/

set_option autoImplicit false

namespace FireEnrich

/-- An enrichment field descriptor, mirroring `EnrichmentField` from
`@/lib/types` as used by this component.  The `type` is a string drawn
from `{"string","number","boolean","array"}` in well-formed values; it is
kept as `String` because the suggestion-conversion code compares and
passes through raw strings. -/
structure EnrichmentField where
  name : String
  displayName : String
  description : String
  type : String
  required : Bool
deriving DecidableEq, Repr, Inhabited

/-- A CSV row: mapping from column name to cell value (`CSVRow`,
i.e. `Record<string, string>`), embedded as an association list. -/
def CSVRow := List (String × String)

/-- The manual-entry form state (`customField` in the component). -/
structure CustomFieldForm where
  name : String
  description : String
  type : String
deriving DecidableEq, Repr

/-- A user-visible transient notification (the `toast` calls). -/
inductive Toast where
  | error (msg : String)
  | success (msg : String)
deriving DecidableEq, Repr

/-- The component's local state: one field per `useState` hook of
`UnifiedEnrichmentView`. -/
structure ComponentState where
  step : Nat
  emailColumn : String
  selectedFields : List EnrichmentField
  showManualAdd : Bool
  showNaturalLanguage : Bool
  naturalLanguageInput : String
  suggestedFields : List EnrichmentField
  isGenerating : Bool
  showAllRows : Bool
  showEmailDropdown : Bool
  showEmailDropdownStep1 : Bool
  customField : CustomFieldForm
deriving DecidableEq, Repr

/-- The `PRESET_FIELDS` catalog (eight fixed templates). -/
def PRESET_FIELDS : List EnrichmentField :=
  [ { name := "companyName", displayName := "Company Name",
      description := "The name of the company", type := "string", required := false },
    { name := "companyDescription", displayName := "Company Description",
      description := "A brief description of what the company does",
      type := "string", required := false },
    { name := "industry", displayName := "Industry",
      description := "The primary industry the company operates in",
      type := "string", required := false },
    { name := "employeeCount", displayName := "Employee Count",
      description := "The number of employees at the company",
      type := "number", required := false },
    { name := "yearFounded", displayName := "Year Founded",
      description := "The year the company was founded",
      type := "number", required := false },
    { name := "headquarters", displayName := "Headquarters",
      description := "The location of the company headquarters",
      type := "string", required := false },
    { name := "fundingRaised", displayName := "Funding Raised",
      description := "Total funding raised by the company",
      type := "string", required := false },
    { name := "fundingStage", displayName := "Funding Stage",
      description := "The current funding stage (e.g., Pre-seed, Seed, Series A, Series B, Series C, Series D+, IPO)",
      type := "string", required := false } ]

/-- The initial `selectedFields` state: the three default fields looked up
from the preset catalog (`PRESET_FIELDS.find(...)` with a non-null
assertion, embedded as `Option.get!`). -/
def initSelectedFields : List EnrichmentField :=
  [ (PRESET_FIELDS.find? (fun f => f.name == "companyName")).get!,
    (PRESET_FIELDS.find? (fun f => f.name == "companyDescription")).get!,
    (PRESET_FIELDS.find? (fun f => f.name == "industry")).get! ]

/-- The component's state right after mount, before any effect or user
interaction: the initial value of every `useState` hook. -/
def initState : ComponentState :=
  { step := 1
    emailColumn := ""
    selectedFields := initSelectedFields
    showManualAdd := false
    showNaturalLanguage := false
    naturalLanguageInput := ""
    suggestedFields := []
    isGenerating := false
    showAllRows := false
    showEmailDropdown := false
    showEmailDropdownStep1 := false
    customField := { name := "", description := "", type := "string" } }

/-- The length of the longest string in a list (0 for the empty list). -/
def maxNameLen (l : List String) : Nat :=
  l.foldr (fun s m => max s.length m) 0

/-- Modelled from the spec: `generateVariableName` lives in
`@/lib/utils/field-utils`, which is not part of the sources under
verification.  The spec guarantees only that the display name "is
transformed into a unique machine identifier via a name-generation helper
guaranteed not to collide with existing field names".  This model returns
the display name itself when it is already fresh and otherwise
disambiguates by padding with underscores past the longest existing name,
which satisfies exactly the guaranteed non-collision contract. -/
def generateVariableName (display : String) (existing : List String) : String :=
  if display ∈ existing then
    display ++ String.mk (List.replicate (maxNameLen existing + 1 - display.length) '_')
  else
    display

/-- `handleAddField`: the single gatekeeping add operation.  Rejects with
a capacity toast at 10 or more selected fields, silently ignores a field
whose `name` is already selected, and otherwise appends. -/
def handleAddField (field : EnrichmentField) (s : ComponentState) :
    ComponentState × List Toast :=
  if s.selectedFields.length ≥ 10 then
    (s, [Toast.error "Maximum 10 fields allowed"])
  else if (s.selectedFields.find? (fun f => f.name == field.name)).isSome then
    (s, [])
  else
    ({ s with selectedFields := s.selectedFields ++ [field] }, [])

/-- `handleRemoveField`: drops every selected field with the given name. -/
def handleRemoveField (fieldName : String) (s : ComponentState) :
    ComponentState × List Toast :=
  ({ s with selectedFields := s.selectedFields.filter (fun f => f.name != fieldName) }, [])

/-- JavaScript `String.prototype.split` with a single-character separator:
auxiliary walk accumulating the current segment in reverse. -/
def splitOnCharAux (sep : Char) : List Char → List Char → List (List Char)
  | [], acc => [acc.reverse]
  | c :: cs, acc =>
    if c == sep then acc.reverse :: splitOnCharAux sep cs []
    else splitOnCharAux sep cs (c :: acc)

/-- JavaScript `s.split(sep)` for a one-character separator; e.g.
`"a@b@c".split("@") = ["a","b","c"]` and `"abc".split("@") = ["abc"]`. -/
def jsSplit (s : String) (sep : Char) : List String :=
  (splitOnCharAux sep s.data []).map String.mk

/-- JavaScript `s.toLowerCase()` (character-wise lowering suffices for the
ASCII data handled here). -/
def jsToLowerCase (s : String) : String :=
  ⟨s.data.map Char.toLower⟩

/-- JavaScript `s.trim()`: strip leading and trailing whitespace. -/
def jsTrim (s : String) : String :=
  ⟨((s.data.dropWhile Char.isWhitespace).reverse.dropWhile Char.isWhitespace).reverse⟩

/-- A field descriptor as returned by `POST /api/generate-fields` inside
`data.fields`: `{displayName, description, type}`. -/
structure ApiFieldDescriptor where
  displayName : String
  description : String
  type : String
deriving DecidableEq, Repr

/-- The `data` member of a generate-fields response body.  `fields` is
`none` when the key is absent or not usable as an array (JS would treat a
missing key as falsy, and a non-array value would make `.map` throw into
the same catch branch). -/
structure GenData where
  fields : Option (List ApiFieldDescriptor)
deriving DecidableEq, Repr

/-- A parsed generate-fields response body `{success, data?}`. -/
structure GenPayload where
  success : Bool
  data : Option GenData
deriving DecidableEq, Repr

/-- The observable outcome of the `fetch` to `/api/generate-fields`:
either a non-OK HTTP response (`response.ok` false, which the handler
turns into a thrown error) or a parsed JSON payload. -/
inductive GenOutcome where
  | httpError
  | payload (p : GenPayload)
deriving DecidableEq, Repr

/-- A payload has the expected `{success:true, data:{fields:[...]}}` shape
exactly when the JS truthiness test `result.success && result.data &&
result.data.fields` passes. -/
def GenPayload.wellFormed (p : GenPayload) : Bool :=
  p.success && (p.data.bind (fun d => d.fields)).isSome

/-- The per-descriptor conversion inside `handleGenerateFields`: coerce
API type `"text"` to `"string"` and `"array"` to `"string"`, pass any
other type through (the TS `as` cast does not change the value), set
`required := false` and generate the machine name against the selected
names captured at request time. -/
def convertField (selectedNames : List String) (d : ApiFieldDescriptor) :
    EnrichmentField :=
  { name := generateVariableName d.displayName selectedNames
    displayName := d.displayName
    description := d.description
    type := if d.type == "text" then "string"
            else if d.type == "array" then "string"
            else d.type
    required := false }

/-- The error toast shared by both generate-fields failure paths. -/
def generateFieldsErrorToast : Toast :=
  Toast.error "Failed to generate fields. Please try again."

/-- `handleGenerateFields`, run to completion for a given fetch outcome:
early return on a whitespace-only prompt; on a non-OK response or a
payload without the `{success:true, data:{fields}}` shape, the catch
branch fires a toast and only the `finally` clears `isGenerating`; on
success the converted fields replace `suggestedFields`, the panel closes
and the prompt clears. -/
def handleGenerateFields (outcome : GenOutcome) (s : ComponentState) :
    ComponentState × List Toast :=
  if jsTrim s.naturalLanguageInput == "" then (s, [])
  else
    match outcome with
    | .httpError => ({ s with isGenerating := false }, [generateFieldsErrorToast])
    | .payload p =>
      match p.success, p.data.bind (fun d => d.fields) with
      | true, some fields =>
        ({ s with
            suggestedFields :=
              fields.map (convertField (s.selectedFields.map (fun f => f.name)))
            showNaturalLanguage := false
            naturalLanguageInput := ""
            isGenerating := false }, [])
      | _, _ => ({ s with isGenerating := false }, [generateFieldsErrorToast])

/-- `handleAddCustomField`: validation-first manual entry.  An empty name
or description is rejected with a toast before any state change;
otherwise the machine name is generated against the current selected
names, the field goes through `handleAddField`, and the form is cleared
and closed. -/
def handleAddCustomField (s : ComponentState) : ComponentState × List Toast :=
  if s.customField.name == "" || s.customField.description == "" then
    (s, [Toast.error "Please fill in all fields"])
  else
    let fieldName :=
      generateVariableName s.customField.name (s.selectedFields.map (fun f => f.name))
    let newField : EnrichmentField :=
      { name := fieldName
        displayName := s.customField.name
        description := s.customField.description
        type := s.customField.type
        required := false }
    let res := handleAddField newField s
    ({ res.1 with
        customField := { name := "", description := "", type := "string" }
        showManualAdd := false }, res.2)

/-- JavaScript `Array.prototype.filter` with an index-aware callback,
as in `suggestedFields.filter((_, i) => i !== idx)`. -/
def filterWithIndexAux {α : Type} (p : α → Nat → Bool) : Nat → List α → List α
  | _, [] => []
  | i, a :: l =>
    if p a i then a :: filterWithIndexAux p (i + 1) l
    else filterWithIndexAux p (i + 1) l

/-- `l.filter((a, i) => p a i)` starting at index 0. -/
def filterWithIndex {α : Type} (p : α → Nat → Bool) (l : List α) : List α :=
  filterWithIndexAux p 0 l

/-- Clicking "Accept" on the suggestion card at `idx`: runs
`handleAddField` on that suggestion and drops the card (both callbacks
read the pre-click state).  For an index without a card nothing happens
(no such button is rendered). -/
def acceptSuggestion (idx : Nat) (s : ComponentState) : ComponentState × List Toast :=
  match s.suggestedFields[idx]? with
  | none => (s, [])
  | some field =>
    let res := handleAddField field s
    ({ res.1 with
        suggestedFields := filterWithIndex (fun _ i => i != idx) s.suggestedFields },
     res.2)

/-- Clicking "Reject" on the suggestion card at `idx`: drops the card and
touches nothing else. -/
def rejectSuggestion (idx : Nat) (s : ComponentState) : ComponentState × List Toast :=
  if idx < s.suggestedFields.length then
    ({ s with suggestedFields := filterWithIndex (fun _ i => i != idx) s.suggestedFields }, [])
  else (s, [])

/-- The `disabled` attribute of the "Start Enrichment" button:
`selectedFields.length === 0`. -/
def startEnrichmentDisabled (s : ComponentState) : Bool :=
  s.selectedFields.length == 0

/-- Clicking "Start Enrichment": the list of `onStartEnrichment`
invocations (as `(emailColumn, fields)` pairs) the click produces.  A
disabled button fires no handler; an enabled one calls the callback once
with the current email column and selected fields. -/
def clickStartEnrichment (s : ComponentState) : List (String × List EnrichmentField) :=
  if startEnrichmentDisabled s then []
  else [(s.emailColumn, s.selectedFields)]

/-- The output of the external `detectEmailColumn` heuristic, abstracted
as an input: a best-guess column name (empty when the detector reports
none) and a confidence score. -/
structure Detection where
  columnName : String
  confidence : Nat
deriving DecidableEq, Repr

/-- The mount effect: when the detector reports a non-empty column name
with confidence above 50, pre-fill the email column selection; in every
case stay on the current step (the effect never calls `setStep`). -/
def detectEffect (d : Detection) (s : ComponentState) : ComponentState :=
  if d.columnName != "" && d.confidence > 50 then
    { s with emailColumn := d.columnName }
  else s

/-- The fixed consumer-mail provider list from the skip-warning block. -/
def commonDomains : List String :=
  ["gmail.com", "yahoo.com", "hotmail.com", "outlook.com", "aol.com", "icloud.com"]

/-- The skip-warning row predicate: `row[emailColumn]?.toLowerCase()`,
falsy values dropped, then `email.split("@")[1]` checked for membership
in `commonDomains` (an undefined or empty domain is falsy). -/
def rowSkippable (emailColumn : String) (row : CSVRow) : Bool :=
  match row.lookup emailColumn with
  | none => false
  | some value =>
    let email := jsToLowerCase value
    if email == "" then false
    else
      match (jsSplit email '@')[1]? with
      | none => false
      | some domain => domain != "" && commonDomains.contains domain

/-- `skippableEmails.length`: how many rows the warning reports. -/
def skippableCount (emailColumn : String) (rows : List CSVRow) : Nat :=
  (rows.filter (rowSkippable emailColumn)).length

/-- The rendered skip warning: `none` when no row matches (the block
returns `null`), otherwise the reported count. -/
def skipWarning (emailColumn : String) (rows : List CSVRow) : Option Nat :=
  if skippableCount emailColumn rows == 0 then none
  else some (skippableCount emailColumn rows)

/-- A user interaction (or resolved effect) on the mounted component. -/
inductive Op where
  | clickPreset (i : Nat)
  | setCustomField (form : CustomFieldForm)
  | clickAddCustom
  | setNaturalLanguageInput (text : String)
  | generateResolved (outcome : GenOutcome)
  | accept (idx : Nat)
  | reject (idx : Nat)
  | setEmailColumn (c : String)
  | clickNext
  | clickBack
  | toggleManualAdd
  | toggleNaturalLanguage
  | setShowAllRows (b : Bool)
  | detect (d : Detection)
deriving Repr

/-- One interaction step.  Buttons with a `disabled` attribute fire no
handler when disabled, mirroring the DOM. -/
def applyOp (op : Op) (s : ComponentState) : ComponentState × List Toast :=
  match op with
  | .clickPreset i =>
    match PRESET_FIELDS[i]? with
    | none => (s, [])
    | some field =>
      let isSel := (s.selectedFields.find? (fun f => f.name == field.name)).isSome
      if s.selectedFields.length ≥ 10 && !isSel then (s, [])
      else if isSel then handleRemoveField field.name s
      else handleAddField field s
  | .setCustomField form => ({ s with customField := form }, [])
  | .clickAddCustom =>
    if s.customField.name == "" || s.customField.description == "" then (s, [])
    else handleAddCustomField s
  | .setNaturalLanguageInput text => ({ s with naturalLanguageInput := text }, [])
  | .generateResolved outcome =>
    if jsTrim s.naturalLanguageInput == "" || s.isGenerating then (s, [])
    else handleGenerateFields outcome s
  | .accept idx => acceptSuggestion idx s
  | .reject idx => rejectSuggestion idx s
  | .setEmailColumn c => ({ s with emailColumn := c }, [])
  | .clickNext => if s.emailColumn == "" then (s, []) else ({ s with step := 2 }, [])
  | .clickBack => ({ s with step := 1 }, [])
  | .toggleManualAdd => ({ s with showManualAdd := !s.showManualAdd }, [])
  | .toggleNaturalLanguage => ({ s with showNaturalLanguage := !s.showNaturalLanguage }, [])
  | .setShowAllRows b => ({ s with showAllRows := b }, [])
  | .detect d => (detectEffect d s, [])

/-- Replay a sequence of interactions, discarding toasts. -/
def runOps (s : ComponentState) (ops : List Op) : ComponentState :=
  ops.foldl (fun s op => (applyOp op s).1) s

/-- The machine identifiers of the currently selected fields. -/
def selectedNames (s : ComponentState) : List String :=
  s.selectedFields.map (fun f => f.name)

/-- The two state invariants of interest: the 10-field cap and
distinctness of selected machine identifiers. -/
def StateInv (s : ComponentState) : Prop :=
  s.selectedFields.length ≤ 10 ∧ (selectedNames s).Nodup

/-! ## Helper lemmas -/

theorem mem_le_maxNameLen {l : List String} {s : String} (h : s ∈ l) :
    s.length ≤ maxNameLen l := by
  induction l with
  | nil => cases h
  | cons a t ih =>
    rcases List.mem_cons.mp h with rfl | h
    · exact le_max_left _ _
    · exact le_trans (ih h) (le_max_right _ _)

theorem generateVariableName_not_mem (display : String) (l : List String) :
    generateVariableName display l ∉ l := by
  unfold generateVariableName
  split
  · rename_i hmem
    intro hin
    have hlen := mem_le_maxNameLen hin
    have hd : display.length ≤ maxNameLen l := mem_le_maxNameLen hmem
    rw [String.length_append] at hlen
    have : (String.mk (List.replicate (maxNameLen l + 1 - display.length) '_')).length
        = maxNameLen l + 1 - display.length := by
      show (List.replicate (maxNameLen l + 1 - display.length) '_').length
          = maxNameLen l + 1 - display.length
      exact List.length_replicate _ _
    omega
  · rename_i hmem
    exact hmem

theorem handleAddField_inv (field : EnrichmentField) (s : ComponentState)
    (h : StateInv s) : StateInv (handleAddField field s).1 := by
  obtain ⟨hlen, hnodup⟩ := h
  unfold handleAddField
  split
  · exact ⟨hlen, hnodup⟩
  · split
    · exact ⟨hlen, hnodup⟩
    · rename_i hge hfind
      have hnot : field.name ∉ selectedNames s := by
        intro hmem
        obtain ⟨g, hg, hgname⟩ := List.mem_map.mp hmem
        exact hfind (List.find?_isSome.mpr ⟨g, hg, by simp [hgname]⟩)
      constructor
      · simp only [List.length_append, List.length_cons, List.length_nil]
        omega
      · simp only [selectedNames, List.map_append, List.map_cons, List.map_nil] at *
        simp [List.nodup_append, hnodup, hnot]

theorem handleAddField_selectedFields_eq_of_length (field : EnrichmentField)
    (s : ComponentState) (h : s.selectedFields.length ≥ 10) :
    handleAddField field s = (s, [Toast.error "Maximum 10 fields allowed"]) := by
  unfold handleAddField
  rw [if_pos h]

theorem handleAddField_appends (field : EnrichmentField) (s : ComponentState)
    (hlen : s.selectedFields.length < 10)
    (hfresh : field.name ∉ selectedNames s) :
    handleAddField field s = ({ s with selectedFields := s.selectedFields ++ [field] }, []) := by
  have hfind : s.selectedFields.find? (fun f => f.name == field.name) = none := by
    rw [List.find?_eq_none]
    intro g hg
    simp only [beq_iff_eq]
    intro heq
    exact hfresh (List.mem_map.mpr ⟨g, hg, heq⟩)
  unfold handleAddField
  rw [if_neg (by omega)]
  rw [hfind]
  simp

theorem handleRemoveField_inv (n : String) (s : ComponentState)
    (h : StateInv s) : StateInv (handleRemoveField n s).1 := by
  obtain ⟨hlen, hnodup⟩ := h
  refine ⟨le_trans (List.length_filter_le _ _) hlen, ?_⟩
  have hsub : (selectedNames (handleRemoveField n s).1).Sublist (selectedNames s) :=
    List.Sublist.map _ (List.filter_sublist _)
  exact hnodup.sublist hsub

theorem handleGenerateFields_selectedFields (outcome : GenOutcome) (s : ComponentState) :
    (handleGenerateFields outcome s).1.selectedFields = s.selectedFields := by
  unfold handleGenerateFields
  split
  · rfl
  · split
    · rfl
    · split <;> rfl

theorem handleAddCustomField_inv (s : ComponentState)
    (h : StateInv s) : StateInv (handleAddCustomField s).1 := by
  unfold handleAddCustomField
  split
  · exact h
  · exact handleAddField_inv _ s h

theorem acceptSuggestion_inv (idx : Nat) (s : ComponentState)
    (h : StateInv s) : StateInv (acceptSuggestion idx s).1 := by
  unfold acceptSuggestion
  split
  · exact h
  · exact handleAddField_inv _ s h

theorem applyOp_inv (op : Op) (s : ComponentState)
    (h : StateInv s) : StateInv (applyOp op s).1 := by
  cases op with
  | clickPreset i =>
    simp only [applyOp]
    split
    · exact h
    · split
      · exact h
      · split
        · exact handleRemoveField_inv _ s h
        · exact handleAddField_inv _ s h
  | setCustomField form => exact h
  | clickAddCustom =>
    simp only [applyOp]
    split
    · exact h
    · exact handleAddCustomField_inv s h
  | setNaturalLanguageInput text => exact h
  | generateResolved outcome =>
    simp only [applyOp]
    split
    · exact h
    · obtain ⟨hlen, hnodup⟩ := h
      have he := handleGenerateFields_selectedFields outcome s
      constructor
      · rw [he]; exact hlen
      · simpa [selectedNames, he] using hnodup
  | accept idx => exact acceptSuggestion_inv idx s h
  | reject idx =>
    simp only [applyOp, rejectSuggestion]
    split <;> exact h
  | setEmailColumn c => exact h
  | clickNext =>
    simp only [applyOp]
    split <;> exact h
  | clickBack => exact h
  | toggleManualAdd => exact h
  | toggleNaturalLanguage => exact h
  | setShowAllRows b => exact h
  | detect d =>
    simp only [applyOp, detectEffect]
    split <;> exact h

theorem runOps_inv (ops : List Op) (s : ComponentState)
    (h : StateInv s) : StateInv (runOps s ops) := by
  induction ops generalizing s with
  | nil => exact h
  | cons op rest ih => exact ih _ (applyOp_inv op s h)

theorem initState_inv : StateInv initState := by
  constructor
  · decide
  · decide

theorem filterWithIndexAux_of_lt {α : Type} (k : Nat) (l : List α) :
    ∀ m : Nat, k < m → filterWithIndexAux (fun _ i => i != k) m l = l := by
  induction l with
  | nil => intro m _; rfl
  | cons a t ih =>
    intro m hm
    have hne : (m != k) = true := by simp; omega
    simp only [filterWithIndexAux, hne, if_true]
    rw [ih (m + 1) (by omega)]

theorem filterWithIndexAux_eraseIdx {α : Type} (l : List α) :
    ∀ (idx m : Nat),
      filterWithIndexAux (fun _ i => i != (m + idx)) m l = l.eraseIdx idx := by
  induction l with
  | nil => intro idx m; cases idx <;> rfl
  | cons a t ih =>
    intro idx m
    cases idx with
    | zero =>
      have heq : (m != m + 0) = false := by simp
      simp only [filterWithIndexAux, heq, if_false, List.eraseIdx]
      exact filterWithIndexAux_of_lt (m + 0) t (m + 1) (by omega)
    | succ j =>
      have hne : (m != m + (j + 1)) = true := by simp
      simp only [filterWithIndexAux, hne, if_true, List.eraseIdx]
      have : m + (j + 1) = (m + 1) + j := by omega
      rw [this, ih j (m + 1)]

theorem filterWithIndex_eraseIdx {α : Type} (l : List α) (idx : Nat) :
    filterWithIndex (fun _ i => i != idx) l = l.eraseIdx idx := by
  have h := filterWithIndexAux_eraseIdx l idx 0
  simpa [filterWithIndex] using h

theorem handleAddField_length (field : EnrichmentField) (s : ComponentState)
    (h : s.selectedFields.length ≤ 10) :
    (handleAddField field s).1.selectedFields.length ≤ 10 := by
  unfold handleAddField
  split
  · exact h
  · split
    · exact h
    · rename_i hge _
      simp only [List.length_append, List.length_cons, List.length_nil]
      omega

/-! ## Claim-side definitions for the skip warning (C9) -/

/-- The claim's row predicate, following its words: the email value,
lowercased and split at the first `"@"`, has its domain part — everything
after that first `"@"` — equal to one of the six fixed providers; rows
with an empty or missing value are not counted. -/
def specSkippable (emailColumn : String) (row : CSVRow) : Bool :=
  match row.lookup emailColumn with
  | none => false
  | some value =>
    let email := jsToLowerCase value
    if email == "" then false
    else
      match jsSplit email '@' with
      | [] => false
      | [_] => false
      | _ :: d :: rest => commonDomains.contains (String.intercalate "@" (d :: rest))

/-- The amended row predicate: the segment of the lowercased value
between the first `"@"` and the next `"@"` (or the end of the string) is
one of the six fixed providers. -/
def amendedSkippable (emailColumn : String) (row : CSVRow) : Bool :=
  match row.lookup emailColumn with
  | none => false
  | some value =>
    let email := jsToLowerCase value
    if email == "" then false
    else
      match jsSplit email '@' with
      | _ :: d :: _ => d != "" && commonDomains.contains d
      | _ => false

theorem rowSkippable_eq_amendedSkippable (emailColumn : String) (row : CSVRow) :
    rowSkippable emailColumn row = amendedSkippable emailColumn row := by
  unfold rowSkippable amendedSkippable
  cases row.lookup emailColumn with
  | none => rfl
  | some value =>
    simp only []
    split
    · rfl
    · cases jsSplit (jsToLowerCase value) '@' with
      | nil => rfl
      | cons a t =>
        cases t with
        | nil => rfl
        | cons d r => simp

/-! ## Concrete data used by witnesses and examples -/

/-- A ready-to-submit generate-fields state: a non-blank prompt typed in. -/
def genReadyState : ComponentState :=
  { initState with naturalLanguageInput := "CEO name and revenue", isGenerating := true }

/-- A payload carrying one suggested descriptor of API type `"text"`. -/
def ceoPayload : GenPayload :=
  { success := true
    data := some { fields := some [{ displayName := "CEO Name",
                                     description := "The name of the CEO",
                                     type := "text" }] } }

/-- A state whose selected list already holds 10 fields. -/
def tenFieldState : ComponentState :=
  { initState with
      selectedFields :=
        PRESET_FIELDS ++
          [ { name := "ceoName", displayName := "CEO Name",
              description := "The name of the CEO", type := "string", required := false },
            { name := "revenue", displayName := "Revenue",
              description := "Annual revenue", type := "string", required := false } ] }

/-- A suggestion card pending acceptance. -/
def sugField : EnrichmentField :=
  { name := "ceoName", displayName := "CEO Name",
    description := "The name of the CEO", type := "string", required := false }

/-- A state with one suggestion card. -/
def suggState : ComponentState :=
  { initState with suggestedFields := [sugField] }

/-- Manual entry twice with the same display name "Revenue". -/
def revenueTwiceOps : List Op :=
  [ Op.setCustomField { name := "Revenue", description := "Annual revenue", type := "string" },
    Op.clickAddCustom,
    Op.setCustomField { name := "Revenue", description := "Annual revenue", type := "string" },
    Op.clickAddCustom ]

/-- Step-2 state with the email column chosen and two selected fields. -/
def twoFieldState : ComponentState :=
  { initState with
      step := 2
      emailColumn := "email"
      selectedFields := initSelectedFields.take 2 }

/-- A manual-entry form with the description left empty. -/
def emptyDescState : ComponentState :=
  { initState with
      step := 2
      showManualAdd := true
      customField := { name := "CEO", description := "", type := "string" } }

/-- A row whose email value contains two `"@"` characters. -/
def doubleAtRow : CSVRow := [("email", "a@gmail.com@x")]

/-- The spec's two-row example: one consumer-provider address, one not. -/
def exampleRows : List CSVRow :=
  [[("email", "a@gmail.com")], [("email", "b@acme.com")]]

/-! ## Claim theorems -/

/-- C1: Along every interaction sequence from the initial state — preset
toggles, manual entries, suggestion acceptances and all other events —
the selected-fields list never exceeds 10 members, and invoking the add
operation on a state that already holds 10 fields leaves the state
unchanged and emits the capacity warning toast. -/
theorem c1_selected_fields_cap :
    (∀ ops : List Op, (runOps initState ops).selectedFields.length ≤ 10) ∧
    (∀ (s : ComponentState) (f : EnrichmentField), s.selectedFields.length = 10 →
      handleAddField f s = (s, [Toast.error "Maximum 10 fields allowed"])) := by
  constructor
  · intro ops
    exact (runOps_inv ops initState initState_inv).1
  · intro s f h
    exact handleAddField_selectedFields_eq_of_length f s (by omega)

theorem c1_selected_fields_cap_witness :
    tenFieldState.selectedFields.length = 10 ∧
    handleAddField
        { name := "newField", displayName := "New Field",
          description := "A new field", type := "string", required := false }
        tenFieldState
      = (tenFieldState, [Toast.error "Maximum 10 fields allowed"]) :=
  ⟨by decide, c1_selected_fields_cap.2 tenFieldState _ (by decide)⟩

/-- C2: In every reachable state the selected machine identifiers are
pairwise distinct; the name-generation helper never returns an
identifier already present in the list it is generated against; and
manually adding the display name "Revenue" twice yields five selected
fields with pairwise distinct identifiers. -/
theorem c2_distinct_names :
    (∀ ops : List Op,
      ((runOps initState ops).selectedFields.map (fun f => f.name)).Nodup) ∧
    (∀ (display : String) (names : List String),
      generateVariableName display names ∉ names) ∧
    (((runOps initState revenueTwiceOps).selectedFields.map (fun f => f.name)).Nodup ∧
      (runOps initState revenueTwiceOps).selectedFields.length = 5) := by
  refine ⟨?_, ?_, ?_, ?_⟩
  · intro ops
    exact (runOps_inv ops initState initState_inv).2
  · intro display names
    exact generateVariableName_not_mem display names
  · decide
  · decide

/-- C3: For any state and any rendered suggestion card, accepting it
removes exactly that card from the suggestion list and, when the cap is
not reached and its name is not already selected, appends it to the
selected list; acceptance always preserves the 10-field cap; rejecting
it removes the card and leaves the selected list unchanged. -/
theorem c3_suggestion_accept_reject (s : ComponentState) (idx : Nat)
    (f : EnrichmentField) (h : s.suggestedFields[idx]? = some f) :
    ((acceptSuggestion idx s).1.suggestedFields = s.suggestedFields.eraseIdx idx) ∧
    (s.selectedFields.length < 10 → f.name ∉ selectedNames s →
      (acceptSuggestion idx s).1.selectedFields = s.selectedFields ++ [f]) ∧
    (s.selectedFields.length ≤ 10 →
      (acceptSuggestion idx s).1.selectedFields.length ≤ 10) ∧
    ((rejectSuggestion idx s).1.suggestedFields = s.suggestedFields.eraseIdx idx) ∧
    ((rejectSuggestion idx s).1.selectedFields = s.selectedFields) := by
  have hlt : idx < s.suggestedFields.length := by
    by_contra hge
    rw [List.getElem?_eq_none (by omega)] at h
    exact Option.noConfusion h
  refine ⟨?_, ?_, ?_, ?_, ?_⟩
  · unfold acceptSuggestion
    rw [h]
    simp only []
    exact filterWithIndex_eraseIdx s.suggestedFields idx
  · intro hlen hfresh
    unfold acceptSuggestion
    rw [h]
    simp only []
    rw [handleAddField_appends f s hlen hfresh]
  · intro hlen
    unfold acceptSuggestion
    rw [h]
    simp only []
    exact handleAddField_length f s hlen
  · unfold rejectSuggestion
    rw [if_pos hlt]
    exact filterWithIndex_eraseIdx s.suggestedFields idx
  · unfold rejectSuggestion
    rw [if_pos hlt]

theorem c3_suggestion_accept_reject_witness :
    suggState.suggestedFields[0]? = some sugField ∧
    suggState.selectedFields.length < 10 ∧
    sugField.name ∉ selectedNames suggState ∧
    (acceptSuggestion 0 suggState).1.suggestedFields
      = suggState.suggestedFields.eraseIdx 0 ∧
    (acceptSuggestion 0 suggState).1.selectedFields
      = suggState.selectedFields ++ [sugField] ∧
    (rejectSuggestion 0 suggState).1.selectedFields = suggState.selectedFields :=
  ⟨by decide, by decide, by decide,
   (c3_suggestion_accept_reject suggState 0 sugField (by decide)).1,
   (c3_suggestion_accept_reject suggState 0 sugField (by decide)).2.1
     (by decide) (by decide),
   (c3_suggestion_accept_reject suggState 0 sugField (by decide)).2.2.2.2⟩

/-- C4: When the prompt is non-blank, a non-OK generate-fields response,
as well as any parsed payload without the `{success:true,
data:{fields:[...]}}` shape, produces exactly the transient error toast
and a state identical to the prior one except for clearing the
in-flight flag: selected fields, suggested fields, the prompt input and
the panel visibility are all untouched. -/
theorem c4_generate_failure (s : ComponentState)
    (h : jsTrim s.naturalLanguageInput ≠ "") :
    (handleGenerateFields GenOutcome.httpError s
      = ({ s with isGenerating := false }, [generateFieldsErrorToast])) ∧
    (∀ p : GenPayload, p.wellFormed = false →
      handleGenerateFields (GenOutcome.payload p) s
        = ({ s with isGenerating := false }, [generateFieldsErrorToast])) := by
  have hb : (jsTrim s.naturalLanguageInput == "") = false := by
    simpa using h
  constructor
  · unfold handleGenerateFields
    rw [hb]
    rfl
  · intro p hp
    unfold handleGenerateFields
    rw [hb]
    simp only [Bool.false_eq_true, if_false]
    unfold GenPayload.wellFormed at hp
    cases hs : p.success with
    | false => cases p.data.bind (fun d => d.fields) <;> rfl
    | true =>
      rw [hs] at hp
      cases hd : p.data.bind (fun d => d.fields) with
      | none => rfl
      | some fields =>
        rw [hd] at hp
        simp at hp

theorem c4_generate_failure_witness :
    jsTrim genReadyState.naturalLanguageInput ≠ "" ∧
    GenPayload.wellFormed { success := true, data := none } = false ∧
    handleGenerateFields GenOutcome.httpError genReadyState
      = ({ genReadyState with isGenerating := false }, [generateFieldsErrorToast]) ∧
    handleGenerateFields (GenOutcome.payload { success := true, data := none }) genReadyState
      = ({ genReadyState with isGenerating := false }, [generateFieldsErrorToast]) :=
  ⟨by decide, by decide,
   (c4_generate_failure genReadyState (by decide)).1,
   (c4_generate_failure genReadyState (by decide)).2
     { success := true, data := none } (by decide)⟩

/-- C5: The descriptor conversion maps API type `"text"` to `"string"`
and `"array"` to `"string"`, passes every other type value through
unchanged, always sets `required := false`, and assigns the generated
machine identifier, which never collides with the selected names it is
generated against; the spec's example payload with type `"text"` yields
a suggested field of type `"string"`. -/
theorem c5_convert_field (names : List String) (d : ApiFieldDescriptor) :
    ((convertField names d).required = false) ∧
    ((convertField names d).name = generateVariableName d.displayName names) ∧
    ((convertField names d).name ∉ names) ∧
    (d.type = "text" → (convertField names d).type = "string") ∧
    (d.type = "array" → (convertField names d).type = "string") ∧
    (d.type ≠ "text" → d.type ≠ "array" → (convertField names d).type = d.type) ∧
    ((handleGenerateFields (GenOutcome.payload ceoPayload) genReadyState).1.suggestedFields.map
        (fun f => f.type) = ["string"]) := by
  refine ⟨rfl, rfl, generateVariableName_not_mem _ _, ?_, ?_, ?_, by decide⟩
  · intro ht
    simp [convertField, ht]
  · intro ht
    simp [convertField, ht]
  · intro ht ha
    simp [convertField, ht, ha]

theorem c5_convert_field_witness :
    (convertField [] { displayName := "CEO Name", description := "The name of the CEO",
                       type := "text" }).type = "string" ∧
    (convertField [] { displayName := "Tags", description := "Product tags",
                       type := "array" }).type = "string" ∧
    (convertField [] { displayName := "Employees", description := "Employee count",
                       type := "number" }).type = "number" ∧
    (convertField [] { displayName := "CEO Name", description := "The name of the CEO",
                       type := "text" }).required = false :=
  ⟨(c5_convert_field [] _).2.2.2.1 rfl,
   (c5_convert_field [] _).2.2.2.2.1 rfl,
   (c5_convert_field [] _).2.2.2.2.2.1 (by decide) (by decide),
   (c5_convert_field [] _).1⟩

/-- C6: The "Start Enrichment" control is enabled exactly when at least
one field is selected, and clicking the enabled control invokes the
external callback exactly once, with the current email column and the
current selected-fields list; a disabled control fires no invocation. -/
theorem c6_start_enrichment (s : ComponentState) :
    (startEnrichmentDisabled s = false ↔ 1 ≤ s.selectedFields.length) ∧
    (startEnrichmentDisabled s = false →
      clickStartEnrichment s = [(s.emailColumn, s.selectedFields)]) ∧
    (startEnrichmentDisabled s = true → clickStartEnrichment s = []) := by
  refine ⟨?_, ?_, ?_⟩
  · unfold startEnrichmentDisabled
    cases s.selectedFields with
    | nil => simp
    | cons a t => simp
  · intro h
    unfold clickStartEnrichment
    rw [h]
    rfl
  · intro h
    unfold clickStartEnrichment
    rw [h]
    rfl

theorem c6_start_enrichment_witness :
    startEnrichmentDisabled twoFieldState = false ∧
    twoFieldState.emailColumn = "email" ∧
    twoFieldState.selectedFields.length = 2 ∧
    clickStartEnrichment twoFieldState
      = [("email", twoFieldState.selectedFields)] :=
  ⟨by decide, by decide, by decide,
   (c6_start_enrichment twoFieldState).2.1 (by decide)⟩

/-- C7: A manual-field submission with an empty name or an empty
description is rejected before any state mutation: the handler returns
the state unchanged — selected fields intact and the form not cleared —
together with the validation error toast. -/
theorem c7_manual_validation (s : ComponentState)
    (h : s.customField.name = "" ∨ s.customField.description = "") :
    handleAddCustomField s = (s, [Toast.error "Please fill in all fields"]) := by
  have hb : (s.customField.name == "" || s.customField.description == "") = true := by
    rcases h with h | h <;> simp [h]
  unfold handleAddCustomField
  rw [hb]
  rfl

theorem c7_manual_validation_witness :
    (emptyDescState.customField.name = "" ∨ emptyDescState.customField.description = "") ∧
    handleAddCustomField emptyDescState
      = (emptyDescState, [Toast.error "Please fill in all fields"]) :=
  ⟨Or.inr (by decide), c7_manual_validation emptyDescState (Or.inr (by decide))⟩

/-- C8: The mount-time detection effect never changes the wizard step;
with a non-empty detected column name and confidence above 50 it
pre-fills the email column selection, and with confidence at most 50 —
or no detected name — the selection stays empty. -/
theorem c8_detection_prefill (d : Detection) :
    ((detectEffect d initState).step = 1) ∧
    (∀ s : ComponentState, (detectEffect d s).step = s.step) ∧
    (d.columnName ≠ "" → d.confidence > 50 →
      (detectEffect d initState).emailColumn = d.columnName) ∧
    (d.confidence ≤ 50 → (detectEffect d initState).emailColumn = "") ∧
    (d.columnName = "" → (detectEffect d initState).emailColumn = "") := by
  refine ⟨?_, ?_, ?_, ?_, ?_⟩
  · unfold detectEffect
    split <;> rfl
  · intro s
    unfold detectEffect
    split <;> rfl
  · intro h1 h2
    unfold detectEffect
    rw [if_pos]
    simp [h1, h2]
  · intro hle
    unfold detectEffect
    split
    · rename_i hcond
      exact absurd (of_decide_eq_true ((Bool.and_eq_true _ _).mp hcond).2) (by omega)
    · rfl
  · intro hempty
    unfold detectEffect
    split
    · rename_i hcond
      have := ((Bool.and_eq_true _ _).mp hcond).1
      rw [hempty] at this
      simp at this
    · rfl

theorem c8_detection_prefill_witness :
    (detectEffect { columnName := "email", confidence := 80 } initState).step = 1 ∧
    (detectEffect { columnName := "email", confidence := 80 } initState).emailColumn
      = "email" ∧
    (detectEffect { columnName := "email", confidence := 30 } initState).emailColumn
      = "" ∧
    (detectEffect { columnName := "", confidence := 80 } initState).emailColumn = "" :=
  ⟨(c8_detection_prefill { columnName := "email", confidence := 80 }).1,
   (c8_detection_prefill { columnName := "email", confidence := 80 }).2.2.1
     (by decide) (by decide),
   (c8_detection_prefill { columnName := "email", confidence := 30 }).2.2.2.1
     (by decide),
   (c8_detection_prefill { columnName := "", confidence := 80 }).2.2.2.2 rfl⟩

/-- C9 counterexample: on the row `{email: "a@gmail.com@x"}` the code
counts the row (it checks only the segment between the first and second
`"@"`, here `"gmail.com"`), while the claim's reading — the domain part
after splitting at the first `"@"`, here `"gmail.com@x"` — matches no
provider, so the claimed count is 0 where the code reports 1. -/
theorem c9_skip_warning_counterexample :
    rowSkippable "email" doubleAtRow = true ∧
    specSkippable "email" doubleAtRow = false ∧
    skippableCount "email" [doubleAtRow] = 1 ∧
    (List.filter (specSkippable "email") [doubleAtRow]).length = 0 := by
  refine ⟨by decide, by decide, by decide, by decide⟩

/-- C9 (amended): the skip warning counts exactly those rows whose
email-column value, lowercased, has the segment between the first `"@"`
and the next `"@"` (or the end) equal to one of the six fixed providers;
rows with a missing or empty value are not counted; the warning is shown
iff the count is non-zero; and the spec's two-row example yields 1. -/
theorem c9_skip_warning_amended (emailColumn : String) (rows : List CSVRow) :
    (skippableCount emailColumn rows
      = (rows.filter (amendedSkippable emailColumn)).length) ∧
    (∀ row : CSVRow, row.lookup emailColumn = none →
      rowSkippable emailColumn row = false) ∧
    (∀ row : CSVRow, row.lookup emailColumn = some "" →
      rowSkippable emailColumn row = false) ∧
    (skipWarning emailColumn rows = none ↔ skippableCount emailColumn rows = 0) ∧
    (∀ n : Nat, skipWarning emailColumn rows = some n →
      n = skippableCount emailColumn rows ∧ n ≠ 0) ∧
    (skippableCount "email" exampleRows = 1) := by
  refine ⟨?_, ?_, ?_, ?_, ?_, by decide⟩
  · unfold skippableCount
    congr 1
    exact List.filter_congr (fun row _ => rowSkippable_eq_amendedSkippable emailColumn row)
  · intro row hrow
    unfold rowSkippable
    rw [hrow]
  · intro row hrow
    unfold rowSkippable
    rw [hrow]
    rfl
  · unfold skipWarning
    constructor
    · intro hw
      by_contra hne
      rw [if_neg (by simpa using hne)] at hw
      exact Option.noConfusion hw
    · intro hz
      rw [if_pos (by simpa using hz)]
  · intro n hw
    unfold skipWarning at hw
    by_cases hz : skippableCount emailColumn rows = 0
    · rw [if_pos (by simpa using hz)] at hw
      exact Option.noConfusion hw
    · rw [if_neg (by simpa using hz)] at hw
      have := Option.some.inj hw
      exact ⟨this.symm, by omega⟩

theorem c9_skip_warning_amended_witness :
    (skippableCount "email" exampleRows
      = (exampleRows.filter (amendedSkippable "email")).length) ∧
    (([] : CSVRow).lookup "email" = none ∧ rowSkippable "email" [] = false) ∧
    ([("email", "")].lookup "email" = some "" ∧
      rowSkippable "email" [("email", "")] = false) ∧
    skipWarning "email" exampleRows = some 1 ∧
    skippableCount "email" exampleRows = 1 :=
  ⟨(c9_skip_warning_amended "email" exampleRows).1,
   ⟨by decide, (c9_skip_warning_amended "email" exampleRows).2.1 [] (by decide)⟩,
   ⟨by decide, (c9_skip_warning_amended "email" exampleRows).2.2.1
      [("email", "")] (by decide)⟩,
   by decide,
   (c9_skip_warning_amended "email" exampleRows).2.2.2.2.2⟩

/-- C10: Before any interaction the selected-fields list is exactly the
three preset fields `companyName`, `companyDescription` and `industry`,
so it is non-empty and the "Start Enrichment" control is already
enabled. -/
theorem c10_default_selection :
    initState.selectedFields.map (fun f => f.name)
      = ["companyName", "companyDescription", "industry"] ∧
    initState.selectedFields
      = [ { name := "companyName", displayName := "Company Name",
            description := "The name of the company", type := "string", required := false },
          { name := "companyDescription", displayName := "Company Description",
            description := "A brief description of what the company does",
            type := "string", required := false },
          { name := "industry", displayName := "Industry",
            description := "The primary industry the company operates in",
            type := "string", required := false } ] ∧
    initState.selectedFields ≠ [] ∧
    initState.selectedFields.length = 3 ∧
    (initState.selectedFields.all (fun f => PRESET_FIELDS.contains f)) = true ∧
    startEnrichmentDisabled initState = false ∧
    clickStartEnrichment initState
      = [(initState.emailColumn, initState.selectedFields)] := by
  refine ⟨by decide, by decide, by decide, by decide, by decide, by decide, by decide⟩

end FireEnrich
